import Mathlib

/-!
Shallow embedding of `app/services/material.py` (MoneyPrinterTurbo material
acquisition service): credential rotation, provider search clients, the
content-addressed download cache, generative polling loops, and the
budget-driven download orchestrator.  Durations are modelled as rationals
(the Python code mixes ints and floats but performs only exact arithmetic
on the values the claims concern); the local filesystem is modelled as a
partial map from paths to file sizes; network and media-probe effects are
modelled as explicit oracle inputs.
-/

/-- A discovered or generated clip, mirroring `MaterialInfo` (fields
`provider`, `url`, `duration`) as used by `material.py`. -/
structure MaterialInfo where
  provider : String
  url : String
  duration : ℚ
deriving DecidableEq, Repr

/-- The configured key pool for one provider, as read by
`config.app.get(cfg_key)`: unset (`None`), a single string, or a list. -/
inductive KeyPool where
  | unset : KeyPool
  | single (k : String) : KeyPool
  | list (ks : List String) : KeyPool
deriving DecidableEq, Repr

/-- `get_api_key` (material.py lines 24-38).  The global counter
`requested_count` is threaded explicitly: the result pairs the key with
the counter value after the call.  Python truthiness: `None`, `""` and
`[]` are falsy and raise; a non-empty string is returned as-is with no
state change; otherwise the counter is incremented FIRST and the key at
index `counter % len(pool)` (with the incremented counter) is returned. -/
def get_api_key (pool : KeyPool) (requested_count : Nat) :
    Except String (String × Nat) :=
  match pool with
  | .unset => .error "not set"
  | .single k =>
      if k = "" then .error "not set" else .ok (k, requested_count)
  | .list ks =>
      if ks = [] then .error "not set"
      else
        let c := requested_count + 1
        .ok (ks.getD (c % ks.length) "", c)

/-- `video_url.split("?")[0]`: the part of the URL before the first
question mark (the whole URL when none occurs). -/
def stripQuery (url : String) : String :=
  String.mk (url.toList.takeWhile (fun c => c ≠ '?'))

/-- Modelled from the spec: `utils.md5` lives outside `src/`; the spec
says only that the canonical URL is hashed into a deterministic
filename, so it is modelled as a deterministic (here: identity)
function of its input. -/
def md5_model (s : String) : String := s

/-- The deterministic cache path `f"{save_dir}/vid-{url_hash}.mp4"`
derived by `save_video` and `_save_video_permissive_ssl`. -/
def videoPathOf (save_dir video_url : String) : String :=
  save_dir ++ "/vid-" ++ md5_model (stripQuery video_url) ++ ".mp4"

/-- The local filesystem: each path is either absent (`none`) or a file
of the given size in bytes. -/
def FS : Type := String → Option Nat

/-- Update the filesystem at one path. -/
def FS.set (fs : FS) (p : String) (v : Option Nat) : FS :=
  fun q => if q = p then v else fs q

/-- `os.path.exists(p) and os.path.getsize(p) > 0`. -/
def FS.nonEmptyAt (fs : FS) (p : String) : Prop :=
  ∃ n, fs p = some n ∧ 0 < n

instance (fs : FS) (p : String) : Decidable (fs.nonEmptyAt p) :=
  match h : fs p with
  | some n =>
      if hn : 0 < n then .isTrue ⟨n, h, hn⟩
      else .isFalse (by rintro ⟨m, hm, hm0⟩; rw [h] at hm; cases hm; exact hn hm0)
  | none => .isFalse (by rintro ⟨m, hm, _⟩; rw [h] at hm; cases hm)

/-- Environment of one `save_video` call: the outcome of the
`requests.get` download (exception, or a body of `n` bytes) and of the
`VideoFileClip` probe (exception, or the reported duration and fps). -/
structure SaveEnv where
  download : Except Unit Nat
  probe : Except Unit (ℚ × ℚ)

/-- `save_video` (material.py lines 154-201), with the filesystem passed
explicitly.  Returns the filesystem after the call together with either
`.error ()` (the Python call raised, as the download is NOT wrapped in
try/except inside `save_video`) or `.ok path` / `.ok ""`.
Control flow mirrored from the source:
  * cache hit when the target path exists with size > 0 — return it
    immediately, consulting neither the download nor the probe;
  * otherwise `open(video_path, "wb")` truncates the file to 0 bytes
    before `requests.get` runs, so a raising download leaves a 0-byte
    file behind and propagates the exception;
  * a written file that exists with size > 0 is probed; a raising probe
    deletes the file and returns `""`; a probe reporting non-positive
    duration or fps falls through to `return ""` WITHOUT deleting;
  * an empty written file skips the probe and returns `""`. -/
def save_video (env : SaveEnv) (fs : FS) (video_url save_dir : String) :
    FS × Except Unit String :=
  let video_path := videoPathOf save_dir video_url
  if fs.nonEmptyAt video_path then
    (fs, .ok video_path)
  else
    let fs1 := fs.set video_path (some 0)
    match env.download with
    | .error _ => (fs1, .error ())
    | .ok n =>
      let fs2 := fs.set video_path (some n)
      if 0 < n then
        match env.probe with
        | .ok (duration, fps) =>
            if 0 < duration ∧ 0 < fps then (fs2, .ok video_path)
            else (fs2, .ok "")
        | .error _ => (fs.set video_path none, .ok "")
      else (fs2, .ok "")

/-- Environment of one `_save_video_permissive_ssl` call: `rc = none`
models `subprocess.run` raising; otherwise the curl return code; and the
state of the target file after the curl attempt. -/
structure CurlEnv where
  rc : Option Int
  fileAfter : Option Nat

/-- `_save_video_permissive_ssl` (material.py lines 396-444).  Cache hit
as in `save_video`; otherwise curl runs (its effect on the target file
is `env.fileAfter`); a zero return code with a non-empty file returns
the path; every other outcome (raise, non-zero code, empty or missing
file) is caught by the enclosing try/except, which removes the file and
returns `""`.  The function never propagates an exception. -/
def save_video_permissive_ssl (env : CurlEnv) (fs : FS)
    (video_url save_dir : String) : FS × String :=
  let video_path := videoPathOf save_dir video_url
  if fs.nonEmptyAt video_path then
    (fs, video_path)
  else
    let fs1 := fs.set video_path env.fileAfter
    if env.rc = some 0 ∧ fs1.nonEmptyAt video_path then
      (fs1, video_path)
    else
      (fs1.set video_path none, "")

/-- One kling status-poll outcome: the request raised (caught, loop
continues), or a JSON body carrying `data.task_status` and — for the
succeed case — the `data.task_result.videos` entries as (url, optional
duration) pairs. -/
inductive KlingPoll where
  | exn : KlingPoll
  | status (task_status : String) (videos : List (String × Option ℚ)) : KlingPoll

/-- Mapping one kling result video into a `MaterialInfo`
(`int(float(v.get("duration", duration)))`, i.e. the reported duration
or the configured default, truncated to an integer). -/
def klingItemOf (default_duration : ℚ) (v : String × Option ℚ) : MaterialInfo :=
  { provider := "kling", url := v.1, duration := (⌊v.2.getD default_duration⌋ : ℤ) }

/-- The kling polling loop (material.py lines 278-314): at most `fuel`
polls; a raised poll request is caught and the next interval is tried;
status `"succeed"` maps the result videos into items; `"failed"` (and
fuel exhaustion, the 5-minute timeout) yields `[]`; any other status
continues. `i` is the index of the next poll in the response stream. -/
def kling_poll_loop (resp : Nat → KlingPoll) (default_duration : ℚ)
    (i fuel : Nat) : List MaterialInfo :=
  match fuel with
  | 0 => []
  | f + 1 =>
    match resp i with
    | .exn => kling_poll_loop resp default_duration (i + 1) f
    | .status s videos =>
        if s = "succeed" then videos.map (klingItemOf default_duration)
        else if s = "failed" then []
        else kling_poll_loop resp default_duration (i + 1) f

/-- The waiting phase of `generate_videos_kling`: `for i in range(60)`. -/
def generate_videos_kling_wait (resp : Nat → KlingPoll)
    (default_duration : ℚ) : List MaterialInfo :=
  kling_poll_loop resp default_duration 0 60

/-- The volcengine polling loop (material.py lines 372-393): at most
`fuel` polls; each response is a status string paired with the URL
that the succeeded-branch extraction chain would produce; `"succeeded"`
returns that URL, `"failed"` (and fuel exhaustion) returns `""`. -/
def volc_poll_loop (resp : Nat → String × String) (i fuel : Nat) : String :=
  match fuel with
  | 0 => ""
  | f + 1 =>
    let r := resp i
    if r.1 = "succeeded" then r.2
    else if r.1 = "failed" then ""
    else volc_poll_loop resp (i + 1) f

/-- The waiting phase of `_generate_volcengine_video`:
`for i in range(100)`. -/
def generate_volcengine_wait (resp : Nat → String × String) : String :=
  volc_poll_loop resp 0 100

/-- The per-term item loop of `_download_kling_videos` (lines 339-346).
Each candidate is paired with the outcome of its `save_video` call:
`.error ()` (the unguarded call raised — it propagates out of the
helper) or `.ok saved` with `saved = ""` for a validation miss.  A save
with a non-empty path appends it and adds `min(max_clip_duration,
item.duration)`; after every item the loop breaks once
`total_duration >= audio_duration`.  Returns the paths, the
accumulated duration, and the unprocessed remainder of the term. -/
def kling_inner (cap target : ℚ)
    (items : List (MaterialInfo × Except Unit String)) (acc : ℚ)
    (paths : List String) :
    Except Unit (List String × ℚ × List (MaterialInfo × Except Unit String)) :=
  match items with
  | [] => .ok (paths, acc, [])
  | (item, outcome) :: rest =>
    match outcome with
    | .error _ => .error ()
    | .ok saved =>
      let st := if saved ≠ "" then (paths ++ [saved], acc + min cap item.duration)
                else (paths, acc)
      if target ≤ st.2 then .ok (st.1, st.2, rest)
      else kling_inner cap target rest st.2 st.1

/-- The term loop of `_download_kling_videos` (lines 334-347): each term
is represented by the candidate/save-outcome list its
`generate_videos_kling` call produced; the loop breaks at the top once
`total_duration >= audio_duration`. -/
def kling_terms (cap target : ℚ)
    (terms : List (List (MaterialInfo × Except Unit String))) (acc : ℚ)
    (paths : List String) : Except Unit (List String × ℚ) :=
  match terms with
  | [] => .ok (paths, acc)
  | t :: ts =>
    if target ≤ acc then .ok (paths, acc)
    else
      match kling_inner cap target t acc paths with
      | .error _ => .error ()
      | .ok (paths', acc', _) => kling_terms cap target ts acc' paths'

/-- The term loop of `_download_volcengine_videos` (lines 469-486).
Each term carries the URL its generation call returned (`""` on
failure/timeout) and the outcome of `_save_video_permissive_ssl` on
that URL (consulted only when the URL is non-empty; that saver never
raises).  A successful save appends the path and adds the CONSTANT
`min(max_clip_duration, 5)` — the generated clip's actual duration is
never consulted; the loop breaks at the top and again at the bottom
once `total_duration >= audio_duration`. -/
def volcengine_terms (cap target : ℚ) (terms : List (String × String))
    (acc : ℚ) (paths : List String) : List String × ℚ :=
  match terms with
  | [] => (paths, acc)
  | (url, saved) :: ts =>
    if target ≤ acc then (paths, acc)
    else
      let st := if url ≠ "" ∧ saved ≠ "" then (paths ++ [saved], acc + min cap 5)
                else (paths, acc)
      if target ≤ st.2 then (st.1, st.2)
      else volcengine_terms cap target ts st.2 st.1

/-- `Option` field access as in Python dict lookup: a missing key
raises (here: `.error ()`, caught by the enclosing try/except). -/
def ofOption {α : Type} : Option α → Except Unit α
  | some a => .ok a
  | none => .error ()

/-- One entry of a pexels `video_files` rendition list; `none` models a
missing key (whose access raises inside the try block). -/
structure PexelsVideoFile where
  width : Option Int
  height : Option Int
  link : Option String

/-- One entry of the pexels `videos` array. -/
structure PexelsVideo where
  duration : Option ℚ
  video_files : Option (List PexelsVideoFile)

/-- A decoded pexels response body; `videos = none` models a body with
no `"videos"` key (handled explicitly, before any exception). -/
structure PexelsResp where
  videos : Option (List PexelsVideo)

/-- The network outcome of one search request: the request or its JSON
decoding raised, or a decoded body was obtained. -/
inductive Wire (α : Type) where
  | exn : Wire α
  | resp (body : α) : Wire α

/-- The inner rendition loop of `search_videos_pexels` (lines 81-90):
first file whose width and height exactly match the target wins; field
access on the way may raise. -/
def pexels_first_file (W H : Int) (dur : ℚ) :
    List PexelsVideoFile → Except Unit (Option MaterialInfo)
  | [] => .ok none
  | f :: fs => do
    let w ← ofOption f.width
    let h ← ofOption f.height
    if w = W ∧ h = H then do
      let link ← ofOption f.link
      .ok (some { provider := "pexels", url := link, duration := dur })
    else pexels_first_file W H dur fs

/-- The outer video loop of `search_videos_pexels` (lines 74-90):
videos shorter than `minimum_duration` are skipped; for the rest the
first exactly-matching rendition (if any) is appended. -/
def pexels_scan (min_d : ℚ) (W H : Int) :
    List PexelsVideo → Except Unit (List MaterialInfo)
  | [] => .ok []
  | v :: rest => do
    let d ← ofOption v.duration
    if d < min_d then pexels_scan min_d W H rest
    else do
      let files ← ofOption v.video_files
      let hit ← pexels_first_file W H d files
      let tail ← pexels_scan min_d W H rest
      .ok (hit.elim tail (· :: tail))

/-- `search_videos_pexels` (material.py lines 41-95).  `get_api_key`
runs BEFORE the try block, so its `ValueError` propagates (the
`.error` case); everything else — transport exception, JSON decoding
failure, a body without `"videos"`, or a missing field mid-scan — is
contained and yields `.ok` with an empty list.  The rotation counter is
threaded alongside the result. -/
def search_videos_pexels (pool : KeyPool) (requested_count : Nat)
    (net : Wire PexelsResp) (min_d : ℚ) (W H : Int) :
    Except String (List MaterialInfo × Nat) :=
  match get_api_key pool requested_count with
  | .error e => .error e
  | .ok kc =>
    match net with
    | .exn => .ok ([], kc.2)
    | .resp r =>
      match r.videos with
      | none => .ok ([], kc.2)
      | some vs =>
        match pexels_scan min_d W H vs with
        | .ok items => .ok (items, kc.2)
        | .error _ => .ok ([], kc.2)

/-- One entry of a pixabay per-hit `videos` dict, in iteration order. -/
structure PixabayVideoFile where
  width : Option Int
  url : Option String

/-- One entry of the pixabay `hits` array. -/
structure PixabayVideo where
  duration : Option ℚ
  videos : Option (List PixabayVideoFile)

/-- A decoded pixabay response body; `hits = none` models a body with
no `"hits"` key. -/
structure PixabayResp where
  hits : Option (List PixabayVideo)

/-- The inner rendition loop of `search_videos_pixabay` (lines 136-146):
first file whose width is at least the target width wins. -/
def pixabay_first_file (W : Int) (dur : ℚ) :
    List PixabayVideoFile → Except Unit (Option MaterialInfo)
  | [] => .ok none
  | f :: fs => do
    let w ← ofOption f.width
    if W ≤ w then do
      let u ← ofOption f.url
      .ok (some { provider := "pixabay", url := u, duration := dur })
    else pixabay_first_file W dur fs

/-- The outer video loop of `search_videos_pixabay` (lines 129-146). -/
def pixabay_scan (min_d : ℚ) (W : Int) :
    List PixabayVideo → Except Unit (List MaterialInfo)
  | [] => .ok []
  | v :: rest => do
    let d ← ofOption v.duration
    if d < min_d then pixabay_scan min_d W rest
    else do
      let files ← ofOption v.videos
      let hit ← pixabay_first_file W d files
      let tail ← pixabay_scan min_d W rest
      .ok (hit.elim tail (· :: tail))

/-- `search_videos_pixabay` (material.py lines 98-151), with the same
exception structure as `search_videos_pexels`. -/
def search_videos_pixabay (pool : KeyPool) (requested_count : Nat)
    (net : Wire PixabayResp) (min_d : ℚ) (W : Int) :
    Except String (List MaterialInfo × Nat) :=
  match get_api_key pool requested_count with
  | .error e => .error e
  | .ok kc =>
    match net with
    | .exn => .ok ([], kc.2)
    | .resp r =>
      match r.hits with
      | none => .ok ([], kc.2)
      | some vs =>
        match pixabay_scan min_d W vs with
        | .ok items => .ok (items, kc.2)
        | .error _ => .ok ([], kc.2)

/-- The merge/deduplication phase of `download_videos` (lines 517-529)
over the concatenation of all per-term search results:
`valid_video_items` and `valid_video_urls` grow in parallel, keeping
only the first occurrence of each URL, while `found_duration` sums the
RAW (uncapped) duration of each retained candidate; the code uses
`found_duration` only in a log line. -/
def dedupe_scan (pending valid_video_items : List MaterialInfo)
    (valid_video_urls : List String) (found_duration : ℚ) :
    List MaterialInfo × List String × ℚ :=
  match pending with
  | [] => (valid_video_items, valid_video_urls, found_duration)
  | item :: rest =>
    if item.url ∈ valid_video_urls then
      dedupe_scan rest valid_video_items valid_video_urls found_duration
    else
      dedupe_scan rest (valid_video_items ++ [item])
        (valid_video_urls ++ [item.url]) (found_duration + item.duration)

/-- The sequential budget-driven download loop of `download_videos`
(material.py lines 545-561).  Each pool candidate is paired with the
outcome of its `save_video` call; a raised call is caught by the
per-item try/except and skipped.  A non-empty saved path is appended,
`min(max_clip_duration, item.duration)` is added, and the loop breaks
as soon as `total_duration > audio_duration` — the comparison is
STRICT, so at exact equality the loop keeps downloading.  Returns the
paths, the accumulated duration, and the unprocessed remainder. -/
def download_loop (cap target : ℚ)
    (items : List (MaterialInfo × Except Unit String)) (acc : ℚ)
    (paths : List String) :
    List String × ℚ × List (MaterialInfo × Except Unit String) :=
  match items with
  | [] => (paths, acc, [])
  | (item, outcome) :: rest =>
    match outcome with
    | .error _ => download_loop cap target rest acc paths
    | .ok saved =>
      if saved ≠ "" then
        let acc' := acc + min cap item.duration
        if target < acc' then (paths ++ [saved], acc', rest)
        else download_loop cap target rest acc' (paths ++ [saved])
      else download_loop cap target rest acc paths

/-- The search-provider pipeline of `download_videos` after the search
calls: merge + dedupe, an ordering pass (`random.shuffle` for random
concat mode, identity otherwise, supplied as a parameter), then the
budget loop starting from `total_duration = 0` and an empty path list.
`found_duration` from the dedupe phase is dropped — it feeds logging
only. -/
def download_videos_search (cap target : ℚ) (merged : List MaterialInfo)
    (shuffle : List MaterialInfo → List MaterialInfo)
    (save : MaterialInfo → Except Unit String) : List String :=
  let pooled := dedupe_scan merged [] [] 0
  (download_loop cap target ((shuffle pooled.1).map (fun i => (i, save i))) 0 []).1

/-- The provider selected by `download_videos` for a given `source`
string (material.py lines 501-515): `"kling"` and `"volcengine"` are
matched explicitly; otherwise the search pipeline runs with
`search_videos_pexels` unless `source == "pixabay"`. -/
inductive Provider where
  | kling : Provider
  | volcengine : Provider
  | pexels : Provider
  | pixabay : Provider
deriving DecidableEq, Repr

/-- The dispatch of `download_videos` on its `source` argument. -/
def dispatch_source (source : String) : Provider :=
  if source = "kling" then .kling
  else if source = "volcengine" then .volcengine
  else if source = "pixabay" then .pixabay
  else .pexels

theorem FS.set_set (fs : FS) (p : String) (v w : Option Nat) :
    (fs.set p v).set p w = fs.set p w := by
  funext q
  simp only [FS.set]
  by_cases h : q = p <;> simp [h]

theorem FS.set_self (fs : FS) (p : String) (v : Option Nat) :
    fs.set p v p = v := by
  simp [FS.set]

theorem save_video_ok_nonEmpty (env : SaveEnv) (fs : FS) (u d : String)
    (fs' : FS) (p : String)
    (h : save_video env fs u d = (fs', Except.ok p)) (hp : p ≠ "") :
    p = videoPathOf d u ∧ ∃ n, fs' p = some n ∧ 0 < n := by
  unfold save_video at h
  by_cases hc : fs.nonEmptyAt (videoPathOf d u)
  · rw [if_pos hc] at h
    injection h with h1 h2
    injection h2 with h3
    subst h1
    subst h3
    exact ⟨rfl, hc⟩
  · rw [if_neg hc] at h
    cases hdl : env.download with
    | error e =>
      rw [hdl] at h
      dsimp only at h
      injection h with h1 h2
      exact absurd h2 (by simp)
    | ok n =>
      rw [hdl] at h
      dsimp only at h
      by_cases hn : 0 < n
      · rw [if_pos hn] at h
        cases hpr : env.probe with
        | ok df =>
          obtain ⟨du, fp⟩ := df
          rw [hpr] at h
          dsimp only at h
          by_cases hgood : 0 < du ∧ 0 < fp
          · rw [if_pos hgood] at h
            injection h with h1 h2
            injection h2 with h3
            subst h1
            subst h3
            exact ⟨rfl, n, FS.set_self .., hn⟩
          · rw [if_neg hgood] at h
            injection h with h1 h2
            injection h2 with h3
            exact absurd h3.symm hp
        | error e =>
          rw [hpr] at h
          dsimp only at h
          injection h with h1 h2
          injection h2 with h3
          exact absurd h3.symm hp
      · rw [if_neg hn] at h
        injection h with h1 h2
        injection h2 with h3
        exact absurd h3.symm hp

theorem save_video_permissive_ssl_ok_nonEmpty (env : CurlEnv) (fs : FS)
    (u d : String) (fs' : FS) (p : String)
    (h : save_video_permissive_ssl env fs u d = (fs', p)) (hp : p ≠ "") :
    p = videoPathOf d u ∧ ∃ n, fs' p = some n ∧ 0 < n := by
  unfold save_video_permissive_ssl at h
  by_cases hc : fs.nonEmptyAt (videoPathOf d u)
  · rw [if_pos hc] at h
    injection h with h1 h2
    subst h1
    subst h2
    exact ⟨rfl, hc⟩
  · rw [if_neg hc] at h
    by_cases hok : env.rc = some 0 ∧ (fs.set (videoPathOf d u) env.fileAfter).nonEmptyAt (videoPathOf d u)
    · rw [if_pos hok] at h
      injection h with h1 h2
      subst h1
      subst h2
      exact ⟨rfl, hok.2⟩
    · rw [if_neg hok] at h
      injection h with h1 h2
      exact absurd h2.symm hp

theorem save_video_cache_hit (env : SaveEnv) (fs : FS) (u d : String)
    (h : fs.nonEmptyAt (videoPathOf d u)) :
    save_video env fs u d = (fs, Except.ok (videoPathOf d u)) := by
  unfold save_video
  rw [if_pos h]

theorem save_video_zero_byte_no_hit (env : SaveEnv) (fs : FS) (u d : String)
    (h : fs (videoPathOf d u) = some 0) :
    save_video env fs u d = save_video env (fs.set (videoPathOf d u) none) u d := by
  have h1 : ¬ fs.nonEmptyAt (videoPathOf d u) := by
    rintro ⟨n, hn, hn0⟩
    rw [h] at hn
    cases hn
    exact absurd hn0 (by simp)
  have h2 : ¬ (fs.set (videoPathOf d u) none).nonEmptyAt (videoPathOf d u) := by
    rintro ⟨n, hn, hn0⟩
    rw [FS.set_self] at hn
    cases hn
  unfold save_video
  rw [if_neg h1, if_neg h2]
  simp only [FS.set_set]

theorem save_video_permissive_zero_byte_no_hit (env : CurlEnv) (fs : FS)
    (u d : String) (h : fs (videoPathOf d u) = some 0) :
    save_video_permissive_ssl env fs u d
      = save_video_permissive_ssl env (fs.set (videoPathOf d u) none) u d := by
  have h1 : ¬ fs.nonEmptyAt (videoPathOf d u) := by
    rintro ⟨n, hn, hn0⟩
    rw [h] at hn
    cases hn
    exact absurd hn0 (by simp)
  have h2 : ¬ (fs.set (videoPathOf d u) none).nonEmptyAt (videoPathOf d u) := by
    rintro ⟨n, hn, hn0⟩
    rw [FS.set_self] at hn
    cases hn
  unfold save_video_permissive_ssl
  rw [if_neg h1, if_neg h2]
  simp only [FS.set_set]

theorem download_loop_no_empty (cap target : ℚ) :
    ∀ (items : List (MaterialInfo × Except Unit String)) (acc : ℚ)
      (paths : List String), (∀ q ∈ paths, q ≠ "") →
      ∀ p ∈ (download_loop cap target items acc paths).1, p ≠ "" := by
  intro items
  induction items with
  | nil => intro acc paths hp p hmem; exact hp p hmem
  | cons hd tl ih =>
    intro acc paths hp p hmem
    obtain ⟨item, outcome⟩ := hd
    cases outcome with
    | error e => exact ih acc paths hp p (by simpa [download_loop] using hmem)
    | ok saved =>
      by_cases hs : saved ≠ ""
      · have hp' : ∀ q ∈ paths ++ [saved], q ≠ "" := by
          intro q hq
          rcases List.mem_append.mp hq with h | h
          · exact hp q h
          · simpa using List.mem_singleton.mp h ▸ hs
        rw [download_loop, if_pos hs] at hmem
        dsimp only at hmem
        by_cases hcross : target < acc + min cap item.duration
        · rw [if_pos hcross] at hmem
          exact hp' p hmem
        · rw [if_neg hcross] at hmem
          exact ih _ _ hp' p hmem
      · rw [download_loop, if_neg hs] at hmem
        exact ih acc paths hp p hmem

theorem download_loop_acc_mono (cap target : ℚ) (hcap : 0 ≤ cap) :
    ∀ (items : List (MaterialInfo × Except Unit String)) (acc : ℚ)
      (paths : List String), (∀ x ∈ items, 0 ≤ x.1.duration) →
      acc ≤ (download_loop cap target items acc paths).2.1 := by
  intro items
  induction items with
  | nil => intro acc paths _; simp [download_loop]
  | cons hd tl ih =>
    intro acc paths hd0
    obtain ⟨item, outcome⟩ := hd
    have hdur : 0 ≤ item.duration := hd0 (item, outcome) (by simp)
    have htl : ∀ x ∈ tl, 0 ≤ x.1.duration := fun x hx => hd0 x (by simp [hx])
    have hstep : acc ≤ acc + min cap item.duration := by
      have : (0:ℚ) ≤ min cap item.duration := le_min hcap hdur
      linarith
    cases outcome with
    | error e => simpa [download_loop] using ih acc paths htl
    | ok saved =>
      by_cases hs : saved ≠ ""
      · rw [download_loop, if_pos hs]
        dsimp only
        by_cases hcross : target < acc + min cap item.duration
        · rw [if_pos hcross]; exact hstep
        · rw [if_neg hcross]
          exact le_trans hstep (ih _ _ htl)
      · rw [download_loop, if_neg hs]
        exact ih acc paths htl

theorem download_loop_rest_crossed (cap target : ℚ) :
    ∀ (items : List (MaterialInfo × Except Unit String)) (acc : ℚ)
      (paths : List String),
      (download_loop cap target items acc paths).2.2 ≠ [] →
      target < (download_loop cap target items acc paths).2.1 := by
  intro items
  induction items with
  | nil => intro acc paths hne; simp [download_loop] at hne
  | cons hd tl ih =>
    intro acc paths hne
    obtain ⟨item, outcome⟩ := hd
    cases outcome with
    | error e =>
      rw [download_loop] at hne ⊢
      exact ih acc paths hne
    | ok saved =>
      by_cases hs : saved ≠ ""
      · rw [download_loop, if_pos hs] at hne ⊢
        dsimp only at hne ⊢
        by_cases hcross : target < acc + min cap item.duration
        · rw [if_pos hcross]
          exact hcross
        · rw [if_neg hcross] at hne ⊢
          exact ih _ _ hne
      · rw [download_loop, if_neg hs] at hne ⊢
        exact ih acc paths hne

/-- Claim C1 (counterexample): the budget loop of `download_videos`
breaks on `total_duration > audio_duration`, STRICTLY.  With pool
durations [10, 15, 20], per-clip cap 5 and target 10, the accumulated
duration equals the target (min 5 10 + min 5 15 = 10) after the second
committed clip, yet the third candidate is still downloaded — refuting
the claimed check of `accumulated ≥ target` (stop at equality). -/
theorem C1_counterexample :
    (download_loop 5 10
      [({ provider := "pexels", url := "u1", duration := 10 }, Except.ok "p1"),
       ({ provider := "pexels", url := "u2", duration := 15 }, Except.ok "p2"),
       ({ provider := "pexels", url := "u3", duration := 20 }, Except.ok "p3")]
      0 []).1 = ["p1", "p2", "p3"] ∧
    (0:ℚ) + min 5 10 + min 5 15 = 10 := by
  constructor
  · norm_num [download_loop]
    simp
  · norm_num

/-- Claim C1 (amended): in `download_videos` with a search provider, the
accumulated duration is non-decreasing across the sequential download
loop (for non-negative cap and candidate durations), each successfully
saved candidate contributes exactly `min(max_clip_duration,
candidate.duration)` with the budget checked after the addition, and
the loop stops early only when the accumulated duration STRICTLY
exceeds `audio_duration`; at exact equality it keeps downloading.  For
durations [10, 15] with per-clip cap 5 and target 10 the result still
has exactly 2 files, because the pool is exhausted. -/
theorem C1_download_budget_strict_crossing (cap target : ℚ)
    (items : List (MaterialInfo × Except Unit String)) (acc : ℚ)
    (paths : List String)
    (hcap : 0 ≤ cap) (hdur : ∀ x ∈ items, 0 ≤ x.1.duration) :
    acc ≤ (download_loop cap target items acc paths).2.1 ∧
    ((download_loop cap target items acc paths).2.2 ≠ [] →
      target < (download_loop cap target items acc paths).2.1) ∧
    (∀ (item : MaterialInfo) (saved : String)
        (rest : List (MaterialInfo × Except Unit String)),
      download_loop cap target ((item, Except.ok saved) :: rest) acc paths =
        if saved ≠ "" then
          (if target < acc + min cap item.duration then
            (paths ++ [saved], acc + min cap item.duration, rest)
          else
            download_loop cap target rest (acc + min cap item.duration)
              (paths ++ [saved]))
        else download_loop cap target rest acc paths) ∧
    (download_loop 5 10
      [({ provider := "pexels", url := "u1", duration := 10 }, Except.ok "p1"),
       ({ provider := "pexels", url := "u2", duration := 15 }, Except.ok "p2")]
      0 []).1 = ["p1", "p2"] := by
  refine ⟨download_loop_acc_mono cap target hcap items acc paths hdur,
    download_loop_rest_crossed cap target items acc paths,
    fun item saved rest => rfl, ?_⟩
  norm_num [download_loop]
  simp

/-- Claim C1 witness: the amended theorem applied to the spec's own
scenario (pool durations [10, 15], cap 5, target 10). -/
theorem C1_witness :
    (0:ℚ) ≤ (download_loop 5 10
      [({ provider := "pexels", url := "u1", duration := 10 }, Except.ok "p1"),
       ({ provider := "pexels", url := "u2", duration := 15 }, Except.ok "p2")]
      0 []).2.1 ∧
    ((download_loop 5 10
      [({ provider := "pexels", url := "u1", duration := 10 }, Except.ok "p1"),
       ({ provider := "pexels", url := "u2", duration := 15 }, Except.ok "p2")]
      0 []).2.2 ≠ [] →
      (10:ℚ) < (download_loop 5 10
      [({ provider := "pexels", url := "u1", duration := 10 }, Except.ok "p1"),
       ({ provider := "pexels", url := "u2", duration := 15 }, Except.ok "p2")]
      0 []).2.1) ∧
    (∀ (item : MaterialInfo) (saved : String)
        (rest : List (MaterialInfo × Except Unit String)),
      download_loop 5 10 ((item, Except.ok saved) :: rest) 0 [] =
        if saved ≠ "" then
          (if (10:ℚ) < 0 + min 5 item.duration then
            ([] ++ [saved], 0 + min 5 item.duration, rest)
          else
            download_loop 5 10 rest (0 + min 5 item.duration) ([] ++ [saved]))
        else download_loop 5 10 rest 0 []) ∧
    (download_loop 5 10
      [({ provider := "pexels", url := "u1", duration := 10 }, Except.ok "p1"),
       ({ provider := "pexels", url := "u2", duration := 15 }, Except.ok "p2")]
      0 []).1 = ["p1", "p2"] :=
  C1_download_budget_strict_crossing 5 10
    [({ provider := "pexels", url := "u1", duration := 10 }, Except.ok "p1"),
     ({ provider := "pexels", url := "u2", duration := 15 }, Except.ok "p2")]
    0 [] (by norm_num)
    (by
      intro x hx
      simp only [List.mem_cons, List.mem_singleton] at hx
      rcases hx with h | h | h
      · subst h; norm_num
      · subst h; norm_num
      · cases h)

theorem rotation_index_coverage (N c i : Nat) (hN : 0 < N) (hi : i < N) :
    ∃ j, j < N ∧ (c + j + 1) % N = i := by
  have hr : (c + 1) % N < N := Nat.mod_lt _ hN
  refine ⟨(i + N - (c + 1) % N) % N, Nat.mod_lt _ hN, ?_⟩
  have e1 : ((i + N - (c + 1) % N) % N) % N = (i + N - (c + 1) % N) % N :=
    Nat.mod_eq_of_lt (Nat.mod_lt _ hN)
  have e2 : (c + 1) % N % N = (c + 1) % N := Nat.mod_eq_of_lt hr
  calc (c + (i + N - (c + 1) % N) % N + 1) % N
      = ((c + 1) + (i + N - (c + 1) % N) % N) % N := by congr 1; omega
    _ = ((c + 1) % N + ((i + N - (c + 1) % N) % N) % N) % N := by
        rw [Nat.add_mod]
    _ = ((c + 1) % N % N + (i + N - (c + 1) % N) % N) % N := by rw [e1, e2]
    _ = ((c + 1) % N + (i + N - (c + 1) % N)) % N := by rw [← Nat.add_mod]
    _ = (i + N) % N := by congr 1; omega
    _ = i % N := Nat.add_mod_right i N
    _ = i := Nat.mod_eq_of_lt hi

/-- Claim C3 (counterexample): `get_api_key` increments the global
counter BEFORE indexing; for the pool ["a", "b"] with counter 0 it
returns pool[(0+1) % 2] = "b" (counter becomes 1), not pool[0 % 2] =
"a" as the claim states. -/
theorem C3_counterexample :
    get_api_key (KeyPool.list ["a", "b"]) 0 = Except.ok ("b", 1) ∧
    ("b" : String) ≠ "a" :=
  ⟨rfl, by decide⟩

/-- Claim C3 (amended): for a single-string pool `get_api_key` always
returns that key with no state change; for a list pool of N keys at
counter c, the counter is first incremented and the call returns
`pool[(c + 1) % N]` leaving the counter at c + 1; N consecutive calls
still return each of the N keys at least once and the returned key
cycles with period N; and the call errors if and only if the pool is
unset, the empty string, or the empty list. -/
theorem C3_rotation (pool : KeyPool) (k : String) (ks : List String)
    (c i : Nat) (hk : k ≠ "") (hks : ks ≠ []) (hi : i < ks.length) :
    get_api_key (KeyPool.single k) c = Except.ok (k, c) ∧
    get_api_key (KeyPool.list ks) c
      = Except.ok (ks.getD ((c + 1) % ks.length) "", c + 1) ∧
    (∃ j, j < ks.length ∧
      get_api_key (KeyPool.list ks) (c + j)
        = Except.ok (ks.getD i "", c + j + 1)) ∧
    (∃ key, get_api_key (KeyPool.list ks) c = Except.ok (key, c + 1) ∧
      get_api_key (KeyPool.list ks) (c + ks.length)
        = Except.ok (key, c + ks.length + 1)) ∧
    ((∃ e, get_api_key pool c = Except.error e) ↔
      pool = KeyPool.unset ∨ pool = KeyPool.single "" ∨
        pool = KeyPool.list []) := by
  have hN : 0 < ks.length := List.length_pos.mpr hks
  refine ⟨by simp [get_api_key, hk], by simp [get_api_key, hks], ?_, ?_, ?_⟩
  · obtain ⟨j, hj, hmod⟩ := rotation_index_coverage ks.length c i hN hi
    exact ⟨j, hj, by simp [get_api_key, hks, hmod]⟩
  · refine ⟨ks.getD ((c + 1) % ks.length) "", by simp [get_api_key, hks], ?_⟩
    have : (c + ks.length + 1) % ks.length = (c + 1) % ks.length := by
      calc (c + ks.length + 1) % ks.length
          = (c + 1 + ks.length) % ks.length := by congr 1; omega
        _ = (c + 1) % ks.length := Nat.add_mod_right _ _
    simp [get_api_key, hks, this]
  · cases pool with
    | unset => simp [get_api_key]
    | single k' =>
      by_cases h : k' = "" <;> simp [get_api_key, h]
    | list ks' =>
      by_cases h : ks' = [] <;> simp [get_api_key, h]

/-- Claim C3 witness: the amended rotation behavior at the two-key pool
["a", "b"], counter 0, target key index 0, and the unset pool for the
error case. -/
theorem C3_witness :
    get_api_key (KeyPool.single "a") 0 = Except.ok ("a", 0) ∧
    get_api_key (KeyPool.list ["a", "b"]) 0 = Except.ok ("b", 1) ∧
    (∃ j, j < 2 ∧ get_api_key (KeyPool.list ["a", "b"]) (0 + j)
        = Except.ok ("a", 0 + j + 1)) ∧
    (∃ key, get_api_key (KeyPool.list ["a", "b"]) 0 = Except.ok (key, 1) ∧
      get_api_key (KeyPool.list ["a", "b"]) 2 = Except.ok (key, 3)) ∧
    ((∃ e, get_api_key KeyPool.unset 0 = Except.error e) ↔
      KeyPool.unset = KeyPool.unset ∨ KeyPool.unset = KeyPool.single "" ∨
        KeyPool.unset = KeyPool.list []) :=
  C3_rotation KeyPool.unset "a" ["a", "b"] 0 0 (by decide) (by decide)
    (by decide)

/-- Claim C9 (confirmed): `download_videos` matches only `"kling"`,
`"volcengine"` and `"pixabay"` specially; every other source string —
not only `"pexels"` — silently dispatches to the pexels search
provider, exactly as `source = "pexels"` does. -/
theorem C9_unknown_source_is_pexels (source : String)
    (h1 : source ≠ "kling") (h2 : source ≠ "volcengine")
    (h3 : source ≠ "pixabay") :
    dispatch_source source = Provider.pexels ∧
    dispatch_source source = dispatch_source "pexels" := by
  simp [dispatch_source, h1, h2, h3]

/-- Claim C9 witness: the unrecognized source `"vimeo"` behaves as
`"pexels"`. -/
theorem C9_witness :
    dispatch_source "vimeo" = Provider.pexels ∧
    dispatch_source "vimeo" = dispatch_source "pexels" :=
  C9_unknown_source_is_pexels "vimeo" (by decide) (by decide) (by decide)

/-- Whether a kling poll response is non-terminal: a raised request, or
a task status other than "succeed" and "failed". -/
def KlingPoll.nonterminal : KlingPoll → Prop
  | .exn => True
  | .status s _ => s ≠ "succeed" ∧ s ≠ "failed"

theorem kling_poll_loop_nonterminal (resp : Nat → KlingPoll) (d : ℚ)
    (h : ∀ i, (resp i).nonterminal) :
    ∀ fuel i, kling_poll_loop resp d i fuel = [] := by
  intro fuel
  induction fuel with
  | zero => intro i; rfl
  | succ f ih =>
    intro i
    rw [kling_poll_loop]
    cases hr : resp i with
    | exn => exact ih (i + 1)
    | status s videos =>
      have := h i
      rw [hr] at this
      obtain ⟨hs1, hs2⟩ := this
      simp only [if_neg hs1, if_neg hs2]
      exact ih (i + 1)

theorem kling_poll_loop_local (d : ℚ) :
    ∀ (fuel i : Nat) (resp resp' : Nat → KlingPoll),
      (∀ k, i ≤ k → k < i + fuel → resp k = resp' k) →
      kling_poll_loop resp d i fuel = kling_poll_loop resp' d i fuel := by
  intro fuel
  induction fuel with
  | zero => intro i resp resp' _; rfl
  | succ f ih =>
    intro i resp resp' h
    have hi : resp i = resp' i := h i (le_refl i) (by omega)
    rw [kling_poll_loop, kling_poll_loop, ← hi]
    have htail := ih (i + 1) resp resp' (fun k hk1 hk2 => h k (by omega) (by omega))
    cases resp i with
    | exn => exact htail
    | status s videos =>
      by_cases h1 : s = "succeed"
      · simp [h1]
      · by_cases h2 : s = "failed"
        · simp [h1, h2]
        · simp only [if_neg h1, if_neg h2]
          exact htail

theorem volc_poll_loop_nonpending (resp : Nat → String × String)
    (h : ∀ i, (resp i).1 ≠ "succeeded" ∧ (resp i).1 ≠ "failed") :
    ∀ fuel i, volc_poll_loop resp i fuel = "" := by
  intro fuel
  induction fuel with
  | zero => intro i; rfl
  | succ f ih =>
    intro i
    rw [volc_poll_loop]
    obtain ⟨h1, h2⟩ := h i
    simp only [if_neg h1, if_neg h2]
    exact ih (i + 1)

theorem volc_poll_loop_local :
    ∀ (fuel i : Nat) (resp resp' : Nat → String × String),
      (∀ k, i ≤ k → k < i + fuel → resp k = resp' k) →
      volc_poll_loop resp i fuel = volc_poll_loop resp' i fuel := by
  intro fuel
  induction fuel with
  | zero => intro i resp resp' _; rfl
  | succ f ih =>
    intro i resp resp' h
    have hi : resp i = resp' i := h i (le_refl i) (by omega)
    rw [volc_poll_loop, volc_poll_loop, ← hi]
    have htail := ih (i + 1) resp resp' (fun k hk1 hk2 => h k (by omega) (by omega))
    by_cases h1 : (resp i).1 = "succeeded"
    · simp [h1]
    · by_cases h2 : (resp i).1 = "failed"
      · simp [h1, h2]
      · simp only [if_neg h1, if_neg h2]
        exact htail

/-- Claim C6 (confirmed): when the task status never becomes terminal
(kling: never "succeed"/"failed"; volcengine: never
"succeeded"/"failed"), the kling waiting loop finishes within its cap
of 60 polls and returns the empty candidate list, and the volcengine
waiting loop finishes within its cap of 100 polls and returns the
empty URL — never a pending state.  The caps are sharp in the model:
the kling result depends only on the first 60 responses and the
volcengine result only on the first 100. -/
theorem C6_poll_cap (kresp : Nat → KlingPoll) (vresp : Nat → String × String)
    (d : ℚ) (hk : ∀ i, (kresp i).nonterminal)
    (hv : ∀ i, (vresp i).1 ≠ "succeeded" ∧ (vresp i).1 ≠ "failed") :
    generate_videos_kling_wait kresp d = [] ∧
    generate_volcengine_wait vresp = "" ∧
    (∀ kresp2 : Nat → KlingPoll, (∀ i, i < 60 → kresp i = kresp2 i) →
      generate_videos_kling_wait kresp2 d = generate_videos_kling_wait kresp d) ∧
    (∀ vresp2 : Nat → String × String, (∀ i, i < 100 → vresp i = vresp2 i) →
      generate_volcengine_wait vresp2 = generate_volcengine_wait vresp) := by
  refine ⟨kling_poll_loop_nonterminal kresp d hk 60 0,
    volc_poll_loop_nonpending vresp hv 100 0, ?_, ?_⟩
  · intro kresp2 h
    exact kling_poll_loop_local d 60 0 kresp2 kresp
      (fun k hk1 hk2 => (h k (by omega)).symm)
  · intro vresp2 h
    exact volc_poll_loop_local 100 0 vresp2 vresp
      (fun k hk1 hk2 => (h k (by omega)).symm)

/-- Claim C6 witness: streams that forever report a pending status. -/
theorem C6_witness :
    generate_videos_kling_wait (fun _ => KlingPoll.status "processing" []) 5 = [] ∧
    generate_volcengine_wait (fun _ => ("running", "")) = "" ∧
    (∀ kresp2 : Nat → KlingPoll, (∀ i, i < 60 →
        (fun _ => KlingPoll.status "processing" []) i = kresp2 i) →
      generate_videos_kling_wait kresp2 5
        = generate_videos_kling_wait (fun _ => KlingPoll.status "processing" []) 5) ∧
    (∀ vresp2 : Nat → String × String, (∀ i, i < 100 →
        (fun _ => (("running" : String), ("" : String))) i = vresp2 i) →
      generate_volcengine_wait vresp2
        = generate_volcengine_wait (fun _ => ("running", ""))) :=
  C6_poll_cap (fun _ => KlingPoll.status "processing" [])
    (fun _ => ("running", "")) 5
    (fun i => by constructor <;> decide)
    (fun i => by constructor <;> simp)

/-- Claim C5 (confirmed): two source URLs that agree before the first
`?` yield the identical cache path `vid-<hash>.mp4` in the same
destination directory; when that path already holds a file of positive
size, `save_video` returns it immediately with the filesystem
unchanged and without consulting the download or the media probe (the
environment is arbitrary); and a successful `save_video` leaves the
file in place, so an immediate repeat call (under any environment) is
a pure cache hit returning the same path — idempotent. -/
theorem C5_cache_idempotent (d u1 u2 : String) (env env' : SaveEnv)
    (fs : FS) (hq : stripQuery u1 = stripQuery u2) :
    videoPathOf d u1 = videoPathOf d u2 ∧
    (∀ n, fs (videoPathOf d u1) = some n → 0 < n →
      save_video env fs u1 d = (fs, Except.ok (videoPathOf d u1))) ∧
    (∀ (fs' : FS) (p : String),
      save_video env fs u1 d = (fs', Except.ok p) → p ≠ "" →
      save_video env' fs' u1 d = (fs', Except.ok p)) := by
  refine ⟨by unfold videoPathOf; rw [hq], ?_, ?_⟩
  · intro n hn hn0
    exact save_video_cache_hit env fs u1 d ⟨n, hn, hn0⟩
  · intro fs' p hsave hp
    obtain ⟨hpath, hne⟩ := save_video_ok_nonEmpty env fs u1 d fs' p hsave hp
    subst hpath
    exact save_video_cache_hit env' fs' u1 d hne

/-- Claim C5 witness: two URLs differing only in query string, an empty
filesystem, and a successful download/probe environment. -/
theorem C5_witness :
    videoPathOf "dir" "http://h/v.mp4?a=1" = videoPathOf "dir" "http://h/v.mp4?b=2" ∧
    (∀ n, (fun _ => none : FS) (videoPathOf "dir" "http://h/v.mp4?a=1") = some n →
      0 < n →
      save_video ⟨Except.ok 7, Except.ok (3, 30)⟩ (fun _ => none)
          "http://h/v.mp4?a=1" "dir"
        = ((fun _ => none : FS), Except.ok (videoPathOf "dir" "http://h/v.mp4?a=1"))) ∧
    (∀ (fs' : FS) (p : String),
      save_video ⟨Except.ok 7, Except.ok (3, 30)⟩ (fun _ => none)
          "http://h/v.mp4?a=1" "dir" = (fs', Except.ok p) → p ≠ "" →
      save_video ⟨Except.ok 9, Except.error ()⟩ fs' "http://h/v.mp4?a=1" "dir"
        = (fs', Except.ok p)) :=
  C5_cache_idempotent "dir" "http://h/v.mp4?a=1" "http://h/v.mp4?b=2"
    ⟨Except.ok 7, Except.ok (3, 30)⟩ ⟨Except.ok 9, Except.error ()⟩
    (fun _ => none) (by decide)

/-- Claim C4 (counterexample): a downloaded file (100 bytes) that opens
as media but reports duration 0 makes `save_video` return the empty
string while the file is NOT deleted — it remains on disk with its 100
bytes, refuting the claimed unconditional deletion on validation
failure. -/
theorem C4_counterexample :
    (save_video ⟨Except.ok 100, Except.ok (0, 30)⟩ (fun _ => none)
      "http://u" "d").2 = Except.ok "" ∧
    (save_video ⟨Except.ok 100, Except.ok (0, 30)⟩ (fun _ => none)
      "http://u" "d").1 (videoPathOf "d" "http://u") = some 100 :=
  ⟨rfl, rfl⟩

/-- Claim C4 (amended): after a fresh download of a non-empty file,
`save_video` deletes the file and returns the empty string only when
the media probe RAISES (the file cannot be opened); when the file
opens but its duration or frame rate is not positive, it returns the
empty string while leaving the file on disk.  In both failure modes
the returned empty string makes the candidate contribute zero files
and zero budget duration to the download loop. -/
theorem C4_validation_failure (env : SaveEnv) (fs : FS) (u d : String)
    (n : Nat) (hmiss : ¬ fs.nonEmptyAt (videoPathOf d u))
    (hdl : env.download = Except.ok n) (hn : 0 < n) :
    (env.probe = Except.error () →
      save_video env fs u d
        = (fs.set (videoPathOf d u) none, Except.ok "")) ∧
    (∀ du fp, env.probe = Except.ok (du, fp) → ¬ (0 < du ∧ 0 < fp) →
      save_video env fs u d
        = (fs.set (videoPathOf d u) (some n), Except.ok "")) ∧
    (∀ (item : MaterialInfo)
        (rest : List (MaterialInfo × Except Unit String))
        (cap target acc : ℚ) (paths : List String),
      download_loop cap target ((item, Except.ok "") :: rest) acc paths
        = download_loop cap target rest acc paths) := by
  refine ⟨?_, ?_, fun item rest cap target acc paths => rfl⟩
  · intro hpr
    unfold save_video
    rw [if_neg hmiss, hdl]
    dsimp only
    rw [if_pos hn, hpr]
  · intro du fp hpr hbad
    unfold save_video
    rw [if_neg hmiss, hdl]
    dsimp only
    rw [if_pos hn, hpr]
    dsimp only
    rw [if_neg hbad]

/-- Claim C4 witness: a 5-byte download whose media probe raises. -/
theorem C4_witness :
    ((⟨Except.ok 5, Except.error ()⟩ : SaveEnv).probe = Except.error () →
      save_video ⟨Except.ok 5, Except.error ()⟩ (fun _ => none) "u" "d"
        = (FS.set (fun _ => none) (videoPathOf "d" "u") none, Except.ok "")) ∧
    (∀ du fp,
      (⟨Except.ok 5, Except.error ()⟩ : SaveEnv).probe = Except.ok (du, fp) →
      ¬ (0 < du ∧ 0 < fp) →
      save_video ⟨Except.ok 5, Except.error ()⟩ (fun _ => none) "u" "d"
        = (FS.set (fun _ => none) (videoPathOf "d" "u") (some 5), Except.ok "")) ∧
    (∀ (item : MaterialInfo)
        (rest : List (MaterialInfo × Except Unit String))
        (cap target acc : ℚ) (paths : List String),
      download_loop cap target ((item, Except.ok "") :: rest) acc paths
        = download_loop cap target rest acc paths) :=
  C4_validation_failure ⟨Except.ok 5, Except.error ()⟩ (fun _ => none) "u" "d"
    5 (by decide) rfl (by decide)

theorem kling_inner_no_empty (cap target : ℚ) :
    ∀ (items : List (MaterialInfo × Except Unit String)) (acc : ℚ)
      (paths : List String)
      (r : List String × ℚ × List (MaterialInfo × Except Unit String)),
      (∀ q ∈ paths, q ≠ "") →
      kling_inner cap target items acc paths = Except.ok r →
      ∀ p ∈ r.1, p ≠ "" := by
  intro items
  induction items with
  | nil =>
    intro acc paths r hp h p hmem
    rw [kling_inner] at h
    injection h with h1
    subst h1
    exact hp p hmem
  | cons hd tl ih =>
    intro acc paths r hp h p hmem
    obtain ⟨item, outcome⟩ := hd
    cases outcome with
    | error e => rw [kling_inner] at h; cases h
    | ok saved =>
      rw [kling_inner] at h
      by_cases hs : saved ≠ ""
      · rw [if_pos hs] at h
        dsimp only at h
        have hp' : ∀ q ∈ paths ++ [saved], q ≠ "" := by
          intro q hq
          rcases List.mem_append.mp hq with hh | hh
          · exact hp q hh
          · simpa using List.mem_singleton.mp hh ▸ hs
        by_cases hcross : target ≤ acc + min cap item.duration
        · rw [if_pos hcross] at h
          injection h with h1
          subst h1
          exact hp' p hmem
        · rw [if_neg hcross] at h
          exact ih _ _ r hp' h p hmem
      · rw [if_neg hs] at h
        dsimp only at h
        by_cases hcross : target ≤ acc
        · rw [if_pos hcross] at h
          injection h with h1
          subst h1
          exact hp p hmem
        · rw [if_neg hcross] at h
          exact ih _ _ r hp h p hmem

theorem kling_terms_no_empty (cap target : ℚ) :
    ∀ (terms : List (List (MaterialInfo × Except Unit String))) (acc : ℚ)
      (paths : List String) (r : List String × ℚ),
      (∀ q ∈ paths, q ≠ "") →
      kling_terms cap target terms acc paths = Except.ok r →
      ∀ p ∈ r.1, p ≠ "" := by
  intro terms
  induction terms with
  | nil =>
    intro acc paths r hp h p hmem
    rw [kling_terms] at h
    injection h with h1
    subst h1
    exact hp p hmem
  | cons t ts ih =>
    intro acc paths r hp h p hmem
    rw [kling_terms] at h
    by_cases hstop : target ≤ acc
    · rw [if_pos hstop] at h
      injection h with h1
      subst h1
      exact hp p hmem
    · rw [if_neg hstop] at h
      cases hin : kling_inner cap target t acc paths with
      | error e => rw [hin] at h; cases h
      | ok r' =>
        rw [hin] at h
        obtain ⟨paths', acc', rest'⟩ := r'
        have hp' : ∀ q ∈ paths', q ≠ "" :=
          kling_inner_no_empty cap target t acc paths (paths', acc', rest') hp hin
        exact ih acc' paths' r hp' h p hmem

theorem volcengine_terms_no_empty (cap target : ℚ) :
    ∀ (terms : List (String × String)) (acc : ℚ) (paths : List String),
      (∀ q ∈ paths, q ≠ "") →
      ∀ p ∈ (volcengine_terms cap target terms acc paths).1, p ≠ "" := by
  intro terms
  induction terms with
  | nil => intro acc paths hp p hmem; exact hp p hmem
  | cons hd ts ih =>
    intro acc paths hp p hmem
    obtain ⟨url, saved⟩ := hd
    rw [volcengine_terms] at hmem
    by_cases hstop : target ≤ acc
    · rw [if_pos hstop] at hmem
      exact hp p hmem
    · rw [if_neg hstop] at hmem
      by_cases hok : url ≠ "" ∧ saved ≠ ""
      · rw [if_pos hok] at hmem
        dsimp only at hmem
        have hp' : ∀ q ∈ paths ++ [saved], q ≠ "" := by
          intro q hq
          rcases List.mem_append.mp hq with hh | hh
          · exact hp q hh
          · simpa using List.mem_singleton.mp hh ▸ hok.2
        by_cases hcross : target ≤ acc + min cap 5
        · rw [if_pos hcross] at hmem
          exact hp' p hmem
        · rw [if_neg hcross] at hmem
          exact ih _ _ hp' p hmem
      · rw [if_neg hok] at hmem
        dsimp only at hmem
        by_cases hcross : target ≤ acc
        · rw [if_pos hcross] at hmem
          exact hp p hmem
        · rw [if_neg hcross] at hmem
          exact ih _ _ hp p hmem

/-- Claim C10 (confirmed): neither saver ever returns a path to a
zero-byte file — a non-empty returned path is always the derived cache
path and holds a file of positive size in the returned filesystem; a
zero-byte leftover file is never served as a cache hit (both savers
behave exactly as if the file were absent); and every entry of the
path lists produced by the search budget loop and by the kling and
volcengine download helpers, all started from an empty path list, is a
non-empty path. -/
theorem C10_no_zero_byte_paths (senv : SaveEnv) (cenv : CurlEnv) (fs : FS)
    (u d : String) (cap target : ℚ)
    (items : List (MaterialInfo × Except Unit String))
    (terms : List (List (MaterialInfo × Except Unit String)))
    (vterms : List (String × String)) :
    (∀ (fs' : FS) (p : String), save_video senv fs u d = (fs', Except.ok p) →
      p ≠ "" → p = videoPathOf d u ∧ ∃ n, fs' p = some n ∧ 0 < n) ∧
    (∀ (fs' : FS) (p : String),
      save_video_permissive_ssl cenv fs u d = (fs', p) → p ≠ "" →
      p = videoPathOf d u ∧ ∃ n, fs' p = some n ∧ 0 < n) ∧
    (fs (videoPathOf d u) = some 0 →
      save_video senv fs u d
        = save_video senv (fs.set (videoPathOf d u) none) u d ∧
      save_video_permissive_ssl cenv fs u d
        = save_video_permissive_ssl cenv (fs.set (videoPathOf d u) none) u d) ∧
    (∀ p ∈ (download_loop cap target items 0 []).1, p ≠ "") ∧
    (∀ r, kling_terms cap target terms 0 [] = Except.ok r →
      ∀ p ∈ r.1, p ≠ "") ∧
    (∀ p ∈ (volcengine_terms cap target vterms 0 []).1, p ≠ "") := by
  have hnil : ∀ q ∈ ([] : List String), q ≠ "" := by simp
  refine ⟨fun fs' p h hp => save_video_ok_nonEmpty senv fs u d fs' p h hp,
    fun fs' p h hp => save_video_permissive_ssl_ok_nonEmpty cenv fs u d fs' p h hp,
    fun h0 => ⟨save_video_zero_byte_no_hit senv fs u d h0,
      save_video_permissive_zero_byte_no_hit cenv fs u d h0⟩,
    download_loop_no_empty cap target items 0 [] hnil,
    fun r h => kling_terms_no_empty cap target terms 0 [] r hnil h,
    volcengine_terms_no_empty cap target vterms 0 [] hnil⟩

/-- Claim C10 witness: concrete environments, an empty filesystem and
empty candidate pools. -/
theorem C10_witness :
    (∀ (fs' : FS) (p : String),
      save_video ⟨Except.ok 3, Except.ok (2, 24)⟩ (fun _ => none) "u" "d"
        = (fs', Except.ok p) →
      p ≠ "" → p = videoPathOf "d" "u" ∧ ∃ n, fs' p = some n ∧ 0 < n) ∧
    (∀ (fs' : FS) (p : String),
      save_video_permissive_ssl ⟨some 0, some 4⟩ (fun _ => none) "u" "d"
        = (fs', p) → p ≠ "" →
      p = videoPathOf "d" "u" ∧ ∃ n, fs' p = some n ∧ 0 < n) ∧
    ((fun _ => none : FS) (videoPathOf "d" "u") = some 0 →
      save_video ⟨Except.ok 3, Except.ok (2, 24)⟩ (fun _ => none) "u" "d"
        = save_video ⟨Except.ok 3, Except.ok (2, 24)⟩
            (FS.set (fun _ => none) (videoPathOf "d" "u") none) "u" "d" ∧
      save_video_permissive_ssl ⟨some 0, some 4⟩ (fun _ => none) "u" "d"
        = save_video_permissive_ssl ⟨some 0, some 4⟩
            (FS.set (fun _ => none) (videoPathOf "d" "u") none) "u" "d") ∧
    (∀ p ∈ (download_loop 5 10 [] 0 []).1, p ≠ "") ∧
    (∀ r, kling_terms 5 10 [] 0 [] = Except.ok r → ∀ p ∈ r.1, p ≠ "") ∧
    (∀ p ∈ (volcengine_terms 5 10 [] 0 []).1, p ≠ "") :=
  C10_no_zero_byte_paths ⟨Except.ok 3, Except.ok (2, 24)⟩ ⟨some 0, some 4⟩
    (fun _ => none) "u" "d" 5 10 [] [] []

theorem get_api_key_configured_ok (pool : KeyPool) (c : Nat)
    (h1 : pool ≠ KeyPool.unset) (h2 : pool ≠ KeyPool.single "")
    (h3 : pool ≠ KeyPool.list []) :
    ∃ kc, get_api_key pool c = Except.ok kc := by
  cases pool with
  | unset => exact absurd rfl h1
  | single k =>
    have hk : k ≠ "" := fun he => h2 (by rw [he])
    exact ⟨(k, c), by simp [get_api_key, hk]⟩
  | list ks =>
    have hks : ks ≠ [] := fun he => h3 (by rw [he])
    exact ⟨(ks.getD ((c + 1) % ks.length) "", c + 1), by simp [get_api_key, hks]⟩

/-- Claim C8 (confirmed): with credentials configured (the key pool is
neither unset nor the empty string nor the empty list),
`search_videos_pexels` and `search_videos_pixabay` never raise, and
every failure outcome returns the EMPTY candidate list: a raised
request or JSON decoding (`Wire.exn`), a body without the expected
`videos`/`hits` array, and a body whose entries are missing fields
mid-scan each yield `([], counter)` rather than a propagated
exception. -/
theorem C8_search_never_raises (pool : KeyPool) (c : Nat)
    (netp : Wire PexelsResp) (netb : Wire PixabayResp) (min_d : ℚ)
    (W H : Int) (h1 : pool ≠ KeyPool.unset) (h2 : pool ≠ KeyPool.single "")
    (h3 : pool ≠ KeyPool.list []) :
    (∃ r, search_videos_pexels pool c netp min_d W H = Except.ok r) ∧
    (∃ r, search_videos_pixabay pool c netb min_d W = Except.ok r) ∧
    (netp = Wire.exn → ∃ c2,
      search_videos_pexels pool c netp min_d W H = Except.ok ([], c2)) ∧
    (∀ r : PexelsResp, netp = Wire.resp r → r.videos = none → ∃ c2,
      search_videos_pexels pool c netp min_d W H = Except.ok ([], c2)) ∧
    (∀ (r : PexelsResp) (vs : List PexelsVideo) (e : Unit),
      netp = Wire.resp r → r.videos = some vs →
      pexels_scan min_d W H vs = Except.error e → ∃ c2,
      search_videos_pexels pool c netp min_d W H = Except.ok ([], c2)) ∧
    (netb = Wire.exn → ∃ c2,
      search_videos_pixabay pool c netb min_d W = Except.ok ([], c2)) ∧
    (∀ r : PixabayResp, netb = Wire.resp r → r.hits = none → ∃ c2,
      search_videos_pixabay pool c netb min_d W = Except.ok ([], c2)) ∧
    (∀ (r : PixabayResp) (vs : List PixabayVideo) (e : Unit),
      netb = Wire.resp r → r.hits = some vs →
      pixabay_scan min_d W vs = Except.error e → ∃ c2,
      search_videos_pixabay pool c netb min_d W = Except.ok ([], c2)) := by
  obtain ⟨kc, hk⟩ := get_api_key_configured_ok pool c h1 h2 h3
  refine ⟨?_, ?_, ?_, ?_, ?_, ?_, ?_, ?_⟩
  · cases netp with
    | exn => exact ⟨([], kc.2), by simp [search_videos_pexels, hk]⟩
    | resp r =>
      cases hv : r.videos with
      | none => exact ⟨([], kc.2), by simp [search_videos_pexels, hk, hv]⟩
      | some vs =>
        cases hs : pexels_scan min_d W H vs with
        | ok items =>
          exact ⟨(items, kc.2), by simp [search_videos_pexels, hk, hv, hs]⟩
        | error e =>
          exact ⟨([], kc.2), by simp [search_videos_pexels, hk, hv, hs]⟩
  · cases netb with
    | exn => exact ⟨([], kc.2), by simp [search_videos_pixabay, hk]⟩
    | resp r =>
      cases hv : r.hits with
      | none => exact ⟨([], kc.2), by simp [search_videos_pixabay, hk, hv]⟩
      | some vs =>
        cases hs : pixabay_scan min_d W vs with
        | ok items =>
          exact ⟨(items, kc.2), by simp [search_videos_pixabay, hk, hv, hs]⟩
        | error e =>
          exact ⟨([], kc.2), by simp [search_videos_pixabay, hk, hv, hs]⟩
  · intro hnet
    subst hnet
    exact ⟨kc.2, by simp [search_videos_pexels, hk]⟩
  · intro r hnet hv
    subst hnet
    exact ⟨kc.2, by simp [search_videos_pexels, hk, hv]⟩
  · intro r vs e hnet hv hs
    subst hnet
    exact ⟨kc.2, by simp [search_videos_pexels, hk, hv, hs]⟩
  · intro hnet
    subst hnet
    exact ⟨kc.2, by simp [search_videos_pixabay, hk]⟩
  · intro r hnet hv
    subst hnet
    exact ⟨kc.2, by simp [search_videos_pixabay, hk, hv]⟩
  · intro r vs e hnet hv hs
    subst hnet
    exact ⟨kc.2, by simp [search_videos_pixabay, hk, hv, hs]⟩

/-- Claim C8 witness: a single-key pool with a raising pexels request
(exercising the raise-yields-empty-list conjunct) and a pixabay body
without the `hits` key (exercising the missing-key-yields-empty-list
conjunct). -/
theorem C8_witness :
    (∃ r, search_videos_pexels (KeyPool.single "k") 0 Wire.exn 5 1080 1920
      = Except.ok r) ∧
    (∃ r, search_videos_pixabay (KeyPool.single "k") 0
      (Wire.resp ⟨none⟩) 5 1080 = Except.ok r) ∧
    ((Wire.exn : Wire PexelsResp) = Wire.exn → ∃ c2,
      search_videos_pexels (KeyPool.single "k") 0 Wire.exn 5 1080 1920
        = Except.ok ([], c2)) ∧
    (∀ r : PexelsResp, (Wire.exn : Wire PexelsResp) = Wire.resp r →
      r.videos = none → ∃ c2,
      search_videos_pexels (KeyPool.single "k") 0 Wire.exn 5 1080 1920
        = Except.ok ([], c2)) ∧
    (∀ (r : PexelsResp) (vs : List PexelsVideo) (e : Unit),
      (Wire.exn : Wire PexelsResp) = Wire.resp r → r.videos = some vs →
      pexels_scan 5 1080 1920 vs = Except.error e → ∃ c2,
      search_videos_pexels (KeyPool.single "k") 0 Wire.exn 5 1080 1920
        = Except.ok ([], c2)) ∧
    ((Wire.resp ⟨none⟩ : Wire PixabayResp) = Wire.exn → ∃ c2,
      search_videos_pixabay (KeyPool.single "k") 0 (Wire.resp ⟨none⟩) 5 1080
        = Except.ok ([], c2)) ∧
    (∀ r : PixabayResp, (Wire.resp ⟨none⟩ : Wire PixabayResp) = Wire.resp r →
      r.hits = none → ∃ c2,
      search_videos_pixabay (KeyPool.single "k") 0 (Wire.resp ⟨none⟩) 5 1080
        = Except.ok ([], c2)) ∧
    (∀ (r : PixabayResp) (vs : List PixabayVideo) (e : Unit),
      (Wire.resp ⟨none⟩ : Wire PixabayResp) = Wire.resp r →
      r.hits = some vs → pixabay_scan 5 1080 vs = Except.error e → ∃ c2,
      search_videos_pixabay (KeyPool.single "k") 0 (Wire.resp ⟨none⟩) 5 1080
        = Except.ok ([], c2)) :=
  C8_search_never_raises (KeyPool.single "k") 0 Wire.exn (Wire.resp ⟨none⟩)
    5 1080 1920 (by decide) (by decide) (by decide)

theorem dedupe_scan_urls (pending : List MaterialInfo) :
    ∀ (items : List MaterialInfo) (urls : List String) (fd : ℚ),
      urls = items.map (fun x => x.url) →
      (dedupe_scan pending items urls fd).2.1
        = (dedupe_scan pending items urls fd).1.map (fun x => x.url) := by
  induction pending with
  | nil => intro items urls fd h; simpa [dedupe_scan] using h
  | cons item rest ih =>
    intro items urls fd h
    rw [dedupe_scan]
    by_cases hm : item.url ∈ urls
    · rw [if_pos hm]
      exact ih items urls fd h
    · rw [if_neg hm]
      exact ih (items ++ [item]) (urls ++ [item.url]) (fd + item.duration)
        (by simp [h])

theorem dedupe_scan_nodup (pending : List MaterialInfo) :
    ∀ (items : List MaterialInfo) (urls : List String) (fd : ℚ),
      urls.Nodup →
      (dedupe_scan pending items urls fd).2.1.Nodup := by
  induction pending with
  | nil => intro items urls fd h; simpa [dedupe_scan] using h
  | cons item rest ih =>
    intro items urls fd h
    rw [dedupe_scan]
    by_cases hm : item.url ∈ urls
    · rw [if_pos hm]
      exact ih items urls fd h
    · rw [if_neg hm]
      exact ih (items ++ [item]) (urls ++ [item.url]) (fd + item.duration)
        (by simp [List.nodup_append, h, hm])

theorem dedupe_scan_sublist (pending : List MaterialInfo) :
    ∀ (items : List MaterialInfo) (urls : List String) (fd : ℚ),
      ∃ t, (dedupe_scan pending items urls fd).1 = items ++ t ∧
        t.Sublist pending := by
  induction pending with
  | nil => intro items urls fd; exact ⟨[], by simp [dedupe_scan], List.Sublist.refl []⟩
  | cons item rest ih =>
    intro items urls fd
    rw [dedupe_scan]
    by_cases hm : item.url ∈ urls
    · rw [if_pos hm]
      obtain ⟨t, ht, hsub⟩ := ih items urls fd
      exact ⟨t, ht, hsub.cons item⟩
    · rw [if_neg hm]
      obtain ⟨t, ht, hsub⟩ := ih (items ++ [item]) (urls ++ [item.url])
        (fd + item.duration)
      exact ⟨item :: t, by simpa using ht, hsub.cons₂ item⟩

theorem dedupe_scan_first_occ (pending : List MaterialInfo) :
    ∀ (items : List MaterialInfo) (urls : List String) (fd : ℚ),
      ∀ x ∈ (dedupe_scan pending items urls fd).1,
        x ∈ items ∨ ∃ pre post, pending = pre ++ x :: post ∧
          (∀ y ∈ pre, y.url ≠ x.url) ∧ x.url ∉ urls := by
  induction pending with
  | nil =>
    intro items urls fd x hx
    rw [dedupe_scan] at hx
    exact Or.inl hx
  | cons item rest ih =>
    intro items urls fd x hx
    rw [dedupe_scan] at hx
    by_cases hm : item.url ∈ urls
    · rw [if_pos hm] at hx
      rcases ih items urls fd x hx with h | ⟨pre, post, hr, hpre, hnot⟩
      · exact Or.inl h
      · refine Or.inr ⟨item :: pre, post, by rw [hr]; rfl, ?_, hnot⟩
        intro y hy
        rcases List.mem_cons.mp hy with hy | hy
        · subst hy
          intro he
          exact hnot (he ▸ hm)
        · exact hpre y hy
    · rw [if_neg hm] at hx
      rcases ih (items ++ [item]) (urls ++ [item.url]) (fd + item.duration)
          x hx with h | ⟨pre, post, hr, hpre, hnot⟩
      · rcases List.mem_append.mp h with h | h
        · exact Or.inl h
        · have hxi : x = item := List.mem_singleton.mp h
          subst hxi
          exact Or.inr ⟨[], rest, rfl, by simp, hm⟩
      · have hnot' : x.url ∉ urls ∧ x.url ≠ item.url := by
          constructor
          · intro hc; exact hnot (by simp [hc])
          · intro hc; exact hnot (by simp [hc])
        refine Or.inr ⟨item :: pre, post, by rw [hr]; rfl, ?_, hnot'.1⟩
        intro y hy
        rcases List.mem_cons.mp hy with hy | hy
        · subst hy
          exact fun he => hnot'.2 he.symm
        · exact hpre y hy

theorem dedupe_scan_complete (pending : List MaterialInfo) :
    ∀ (items : List MaterialInfo) (urls : List String) (fd : ℚ),
      urls = items.map (fun x => x.url) →
      ∀ x ∈ pending, ∃ c ∈ (dedupe_scan pending items urls fd).1,
        c.url = x.url := by
  induction pending with
  | nil => intro items urls fd h x hx; cases hx
  | cons item rest ih =>
    intro items urls fd h x hx
    rw [dedupe_scan]
    by_cases hm : item.url ∈ urls
    · rw [if_pos hm]
      rcases List.mem_cons.mp hx with hxi | hxr
      · subst hxi
        rw [h] at hm
        obtain ⟨c, hc, hcu⟩ := List.mem_map.mp hm
        obtain ⟨t, ht, _⟩ := dedupe_scan_sublist rest items urls fd
        exact ⟨c, by rw [ht]; exact List.mem_append_left t hc, hcu⟩
      · exact ih items urls fd h x hxr
    · rw [if_neg hm]
      rcases List.mem_cons.mp hx with hxi | hxr
      · refine ⟨item, ?_, by rw [hxi]⟩
        obtain ⟨t, ht, _⟩ := dedupe_scan_sublist rest (items ++ [item])
          (urls ++ [item.url]) (fd + item.duration)
        rw [ht]
        exact List.mem_append_left t (List.mem_append_right items (by simp))
      · exact ih (items ++ [item]) (urls ++ [item.url]) (fd + item.duration)
          (by simp [h]) x hxr

/-- Claim C7 (confirmed): the deduplicated pool built by
`download_videos` from the merged search results has pairwise-distinct
source URLs (the parallel `valid_video_urls` list is exactly the pool's
URLs and has no duplicates); for each retained candidate there is a
decomposition of the merged input showing it is the FIRST occurrence of
its URL; every input URL is represented; the pool is a sublist of the
input, preserving discovery order; and the `found_duration` sum
computed during this phase is dropped by the rest of the pipeline —
the downloaded paths are a function of the pool alone. -/
theorem C7_dedup_pool (merged : List MaterialInfo) (cap target : ℚ)
    (shuffle : List MaterialInfo → List MaterialInfo)
    (save : MaterialInfo → Except Unit String) :
    ((dedupe_scan merged [] [] 0).1.map (fun x => x.url)).Nodup ∧
    (dedupe_scan merged [] [] 0).2.1
      = (dedupe_scan merged [] [] 0).1.map (fun x => x.url) ∧
    (∀ x ∈ (dedupe_scan merged [] [] 0).1,
      ∃ pre post, merged = pre ++ x :: post ∧ ∀ y ∈ pre, y.url ≠ x.url) ∧
    (∀ x ∈ merged, ∃ c ∈ (dedupe_scan merged [] [] 0).1, c.url = x.url) ∧
    (dedupe_scan merged [] [] 0).1.Sublist merged ∧
    download_videos_search cap target merged shuffle save
      = (download_loop cap target
          ((shuffle (dedupe_scan merged [] [] 0).1).map (fun i => (i, save i)))
          0 []).1 := by
  have hurls := dedupe_scan_urls merged [] [] 0 rfl
  refine ⟨?_, hurls, ?_, ?_, ?_, rfl⟩
  · rw [← hurls]
    exact dedupe_scan_nodup merged [] [] 0 List.nodup_nil
  · intro x hx
    rcases dedupe_scan_first_occ merged [] [] 0 x hx with h | ⟨pre, post, hr, hpre, _⟩
    · cases h
    · exact ⟨pre, post, hr, hpre⟩
  · exact dedupe_scan_complete merged [] [] 0 rfl
  · obtain ⟨t, ht, hsub⟩ := dedupe_scan_sublist merged [] [] 0
    rw [ht]
    simpa using hsub

/-- Claim C7 witness: a three-candidate pool with one repeated URL. -/
theorem C7_witness :
    ((dedupe_scan
      [{ provider := "pexels", url := "a", duration := 10 },
       { provider := "pexels", url := "b", duration := 8 },
       { provider := "pexels", url := "a", duration := 7 }] [] [] 0).1.map
        (fun x => x.url)).Nodup ∧
    (dedupe_scan
      [{ provider := "pexels", url := "a", duration := 10 },
       { provider := "pexels", url := "b", duration := 8 },
       { provider := "pexels", url := "a", duration := 7 }] [] [] 0).2.1
      = (dedupe_scan
      [{ provider := "pexels", url := "a", duration := 10 },
       { provider := "pexels", url := "b", duration := 8 },
       { provider := "pexels", url := "a", duration := 7 }] [] [] 0).1.map
        (fun x => x.url) ∧
    (∀ x ∈ (dedupe_scan
      [{ provider := "pexels", url := "a", duration := 10 },
       { provider := "pexels", url := "b", duration := 8 },
       { provider := "pexels", url := "a", duration := 7 }] [] [] 0).1,
      ∃ pre post,
        ([{ provider := "pexels", url := "a", duration := 10 },
          { provider := "pexels", url := "b", duration := 8 },
          { provider := "pexels", url := "a", duration := 7 }] : List MaterialInfo)
          = pre ++ x :: post ∧ ∀ y ∈ pre, y.url ≠ x.url) ∧
    (∀ x ∈ ([{ provider := "pexels", url := "a", duration := 10 },
       { provider := "pexels", url := "b", duration := 8 },
       { provider := "pexels", url := "a", duration := 7 }] : List MaterialInfo),
      ∃ c ∈ (dedupe_scan
        [{ provider := "pexels", url := "a", duration := 10 },
         { provider := "pexels", url := "b", duration := 8 },
         { provider := "pexels", url := "a", duration := 7 }] [] [] 0).1,
        c.url = x.url) ∧
    (dedupe_scan
      [{ provider := "pexels", url := "a", duration := 10 },
       { provider := "pexels", url := "b", duration := 8 },
       { provider := "pexels", url := "a", duration := 7 }] [] [] 0).1.Sublist
      [{ provider := "pexels", url := "a", duration := 10 },
       { provider := "pexels", url := "b", duration := 8 },
       { provider := "pexels", url := "a", duration := 7 }] ∧
    download_videos_search 5 10
      [{ provider := "pexels", url := "a", duration := 10 },
       { provider := "pexels", url := "b", duration := 8 },
       { provider := "pexels", url := "a", duration := 7 }] id
      (fun _ => Except.ok "p")
      = (download_loop 5 10
          ((id (dedupe_scan
            [{ provider := "pexels", url := "a", duration := 10 },
             { provider := "pexels", url := "b", duration := 8 },
             { provider := "pexels", url := "a", duration := 7 }] [] [] 0).1).map
            (fun i => (i, (fun _ => Except.ok "p") i))) 0 []).1 :=
  C7_dedup_pool
    [{ provider := "pexels", url := "a", duration := 10 },
     { provider := "pexels", url := "b", duration := 8 },
     { provider := "pexels", url := "a", duration := 7 }] 5 10 id
    (fun _ => Except.ok "p")

theorem kling_inner_rest_crossed (cap target : ℚ) :
    ∀ (items : List (MaterialInfo × Except Unit String)) (acc : ℚ)
      (paths : List String)
      (r : List String × ℚ × List (MaterialInfo × Except Unit String)),
      kling_inner cap target items acc paths = Except.ok r →
      r.2.2 ≠ [] → target ≤ r.2.1 := by
  intro items
  induction items with
  | nil =>
    intro acc paths r h hne
    rw [kling_inner] at h
    injection h with h1
    subst h1
    simp at hne
  | cons hd tl ih =>
    intro acc paths r h hne
    obtain ⟨item, outcome⟩ := hd
    cases outcome with
    | error e => rw [kling_inner] at h; cases h
    | ok saved =>
      rw [kling_inner] at h
      by_cases hs : saved ≠ ""
      · rw [if_pos hs] at h
        dsimp only at h
        by_cases hcross : target ≤ acc + min cap item.duration
        · rw [if_pos hcross] at h
          injection h with h1
          subst h1
          exact hcross
        · rw [if_neg hcross] at h
          exact ih _ _ r h hne
      · rw [if_neg hs] at h
        dsimp only at h
        by_cases hcross : target ≤ acc
        · rw [if_pos hcross] at h
          injection h with h1
          subst h1
          exact hcross
        · rw [if_neg hcross] at h
          exact ih _ _ r h hne

/-- Claim C2 (counterexample): in `_download_volcengine_videos` a
successful download increases the budget by the CONSTANT
`min(max_clip_duration, 5)`, never by the generated clip's own
duration (which the helper does not even receive).  With per-clip cap
10 and a generated clip of duration 10 the claim demands an increase
of `min(10, 10) = 10`, but the accumulated duration after the download
is 5. -/
theorem C2_counterexample :
    (volcengine_terms 10 100 [("u", "p")] 0 []).2 = 5 ∧
    min (10:ℚ) 10 = 10 ∧ (5:ℚ) ≠ 10 := by
  refine ⟨?_, by norm_num, by norm_num⟩
  norm_num [volcengine_terms]
  simp

/-- Claim C2 (amended): for kling, each candidate whose `save_video`
succeeds adds exactly `min(max_clip_duration, item.duration)` and the
per-term item loop stops mid-term as soon as the budget is met
(`target ≤ accumulated`, checked after every item); when the item loop
hands back an unprocessed remainder, the budget is indeed met; and the
term loop stops before a remaining term once the budget is met.  For
volcengine, each successful download adds the CONSTANT
`min(max_clip_duration, 5)` — independent of the generated clip's
actual duration — with the same stop-once-met behavior. -/
theorem C2_generative_budget (cap target : ℚ) (item : MaterialInfo)
    (saved : String) (rest : List (MaterialInfo × Except Unit String))
    (items : List (MaterialInfo × Except Unit String)) (acc : ℚ)
    (paths : List String) (url vsaved : String)
    (vts : List (String × String)) (hacc : acc < target) :
    (kling_inner cap target ((item, Except.ok saved) :: rest) acc paths =
      if saved ≠ "" then
        (if target ≤ acc + min cap item.duration then
          Except.ok (paths ++ [saved], acc + min cap item.duration, rest)
        else
          kling_inner cap target rest (acc + min cap item.duration)
            (paths ++ [saved]))
      else kling_inner cap target rest acc paths) ∧
    (∀ r, kling_inner cap target items acc paths = Except.ok r →
      r.2.2 ≠ [] → target ≤ r.2.1) ∧
    (∀ (t : List (MaterialInfo × Except Unit String))
        (ts : List (List (MaterialInfo × Except Unit String)))
        (acc2 : ℚ) (paths2 : List String), target ≤ acc2 →
      kling_terms cap target (t :: ts) acc2 paths2
        = Except.ok (paths2, acc2)) ∧
    (volcengine_terms cap target ((url, vsaved) :: vts) acc paths =
      if url ≠ "" ∧ vsaved ≠ "" then
        (if target ≤ acc + min cap 5 then
          (paths ++ [vsaved], acc + min cap 5)
        else
          volcengine_terms cap target vts (acc + min cap 5)
            (paths ++ [vsaved]))
      else volcengine_terms cap target vts acc paths) := by
  refine ⟨?_, fun r h hne => kling_inner_rest_crossed cap target items acc
    paths r h hne, ?_, ?_⟩
  · by_cases hs : saved ≠ ""
    · simp only [kling_inner, if_pos hs]
    · simp only [kling_inner, if_neg hs]
      rw [if_neg (not_le.mpr hacc)]
  · intro t ts acc2 paths2 h
    rw [kling_terms, if_pos h]
  · by_cases hok : url ≠ "" ∧ vsaved ≠ ""
    · simp only [volcengine_terms, if_neg (not_le.mpr hacc), if_pos hok]
    · simp only [volcengine_terms, if_neg (not_le.mpr hacc), if_neg hok]

/-- Claim C2 witness: cap 5, target 10, a 7-second kling clip saved as
"p", and a volcengine term ("u", "q"), starting from an empty run. -/
theorem C2_witness :
    (kling_inner 5 10
        [({ provider := "kling", url := "k", duration := 7 }, Except.ok "p")]
        0 [] =
      if ("p" : String) ≠ "" then
        (if (10:ℚ) ≤ 0 + min 5
            ({ provider := "kling", url := "k", duration := 7 } :
              MaterialInfo).duration then
          Except.ok ([] ++ ["p"], 0 + min 5
            ({ provider := "kling", url := "k", duration := 7 } :
              MaterialInfo).duration, [])
        else
          kling_inner 5 10 [] (0 + min 5
            ({ provider := "kling", url := "k", duration := 7 } :
              MaterialInfo).duration) ([] ++ ["p"]))
      else kling_inner 5 10 [] 0 []) ∧
    (∀ r, kling_inner 5 10 [] 0 [] = Except.ok r →
      r.2.2 ≠ [] → (10:ℚ) ≤ r.2.1) ∧
    (∀ (t : List (MaterialInfo × Except Unit String))
        (ts : List (List (MaterialInfo × Except Unit String)))
        (acc2 : ℚ) (paths2 : List String), (10:ℚ) ≤ acc2 →
      kling_terms 5 10 (t :: ts) acc2 paths2 = Except.ok (paths2, acc2)) ∧
    (volcengine_terms 5 10 [("u", "q")] 0 [] =
      if ("u" : String) ≠ "" ∧ ("q" : String) ≠ "" then
        (if (10:ℚ) ≤ 0 + min 5 5 then ([] ++ ["q"], 0 + min 5 5)
        else volcengine_terms 5 10 [] (0 + min 5 5) ([] ++ ["q"]))
      else volcengine_terms 5 10 [] 0 []) :=
  C2_generative_budget 5 10
    { provider := "kling", url := "k", duration := 7 } "p" [] [] 0 []
    "u" "q" [] (by norm_num)
